import Mathlib

/-!
Verification of the midirouter routing/filter/transform engine.

The Go source (`main.go`) is shallowly embedded here:
  * a MIDI message (`midi.Message`, a `[]byte`) is a `List Nat` of bytes;
  * the gomidi decoders `GetNoteOn` / `GetNoteOff` are embedded as
    `getNoteOn` / `getNoteOff` (status-nibble based, as the library decodes);
  * the filters (`ChannelFilter.ShouldPass`, `NoteRangeFilter.ShouldPass`),
    the transforms (`applyChannelOverride`, `applyNoteTransposition`), the
    route evaluator (`shouldRouteMessage`) and the dispatch loop inside
    `runMIDIRouter`'s `ListenTo` callback are translated function by
    function; Go's in-place mutation of the `MessageTransformation` record
    becomes explicit state passing;
  * the output transport (`senders[i]`) is abstracted as a boolean oracle
    `sendOk : Nat → Msg → Bool` telling whether the i-th send succeeds, and
    the observable actions of the callback (sends, error logs, per-route
    report lines, the dropped-message line) are collected as a `LogEvent`
    list.
-/

namespace MidiRouter

/-- A raw MIDI message: status byte followed by data bytes (each a `uint8`,
so < 256 in well-formed messages). Mirrors gomidi's `type Message []byte`. -/
abbrev Msg := List Nat

/-- Embedding of gomidi's `msg.GetNoteOn(&channel, &key, &velocity)`:
succeeds exactly on messages whose status byte has high nibble `0x9`
(Note On), returning the decoded zero-based channel (low nibble of the
status byte), the key and the velocity.  Decoding is strictly by status
nibble; a Note On with velocity 0 still decodes as Note On. -/
def getNoteOn (msg : Msg) : Option (Nat × Nat × Nat) :=
  match msg with
  | s :: k :: v :: _ =>
      if 0x90 ≤ s ∧ s ≤ 0x9F then some (s &&& 0x0F, k, v) else none
  | _ => none

/-- Embedding of gomidi's `msg.GetNoteOff(&channel, &key, &velocity)`:
succeeds exactly on messages whose status byte has high nibble `0x8`. -/
def getNoteOff (msg : Msg) : Option (Nat × Nat × Nat) :=
  match msg with
  | s :: k :: v :: _ =>
      if 0x80 ≤ s ∧ s ≤ 0x8F then some (s &&& 0x0F, k, v) else none
  | _ => none

/-- `type ChannelFilter struct { Channel uint8 }` (configured one-based
channel, 1-16 after validation). -/
structure ChannelFilter where
  channel : Nat
deriving Repr, DecidableEq

/-- `func (cf *ChannelFilter) ShouldPass(msg midi.Message) bool`:
Note On/Off messages compare decoded channel + 1 with the configured
channel; otherwise any nonempty message compares `(msg[0] & 0x0F) + 1`;
an empty message passes. -/
def ChannelFilter.ShouldPass (cf : ChannelFilter) (msg : Msg) : Bool :=
  match getNoteOn msg with
  | some (channel, _, _) => channel + 1 == cf.channel
  | none =>
    match getNoteOff msg with
    | some (channel, _, _) => channel + 1 == cf.channel
    | none =>
      match msg with
      | s :: _ => (s &&& 0x0F) + 1 == cf.channel
      | [] => true

/-- `type NoteRangeFilter struct { MinNote, MaxNote uint8 }`. -/
structure NoteRangeFilter where
  minNote : Nat
  maxNote : Nat
deriving Repr, DecidableEq

/-- `func (nrf *NoteRangeFilter) ShouldPass(msg midi.Message) bool`:
Note On/Off pass iff `MinNote <= key <= MaxNote`; every other message
passes. -/
def NoteRangeFilter.ShouldPass (nrf : NoteRangeFilter) (msg : Msg) : Bool :=
  match getNoteOn msg with
  | some (_, key, _) => nrf.minNote ≤ key && key ≤ nrf.maxNote
  | none =>
    match getNoteOff msg with
    | some (_, key, _) => nrf.minNote ≤ key && key ≤ nrf.maxNote
    | none => true

/-- `type MessageTransformation struct` - the per-output record of what the
transforms changed.  Go's nil pointers become `Option`. -/
structure MessageTransformation where
  OriginalChannel : Option Nat := none
  TransformedChannel : Option Nat := none
  OriginalNote : Option Nat := none
  TransformedNote : Option Nat := none
deriving Repr, DecidableEq

/-- `type OutputConfig struct` - one configured output.  `overrideChannel`
is the one-based uint8 (1-16 after validation); `transposeSemitones` is the
int8, embedded as `Int` (Go widens it with `int(*transposeSemitones)`
before use, which is exact). -/
structure OutputConfig where
  name : String := ""
  channelFilter : Option ChannelFilter := none
  noteRangeFilter : Option NoteRangeFilter := none
  overrideChannel : Option Nat := none
  transposeSemitones : Option Int := none
deriving Repr, DecidableEq

/-- `func applyChannelOverride(msg, overrideChannel, transform)`: if an
override is configured and the message is a channel message
(status byte in `0x80..0xEF`), a copy with the channel nibble replaced by
`overrideChannel - 1` (uint8 wraparound modelled as `(oc + 255) % 256`) is
returned and the transformation record is filled in; otherwise the bytes
are returned unchanged. -/
def applyChannelOverride (msg : Msg) (overrideChannel : Option Nat)
    (transform : MessageTransformation) : Msg × MessageTransformation :=
  match overrideChannel with
  | none => (msg, transform)
  | some oc =>
    match msg with
    | [] => ([], transform)
    | statusByte :: rest =>
      if 0x80 ≤ statusByte ∧ statusByte ≤ 0xEF then
        (((statusByte &&& 0xF0) ||| (((oc + 255) % 256) &&& 0x0F)) :: rest,
         { transform with
             OriginalChannel := some ((statusByte &&& 0x0F) + 1),
             TransformedChannel := some oc })
      else (statusByte :: rest, transform)

/-- `func applyNoteTransposition(msg, transposeSemitones, transform)`:
for a Note On or Note Off message (the Go source has two byte-identical
branches for the two decoders) and a nonzero semitone count, computes
`newNote = int(key) + int(semitones)`; out of `[0,127]` returns the
original message, otherwise a copy with byte 1 replaced and the record
filled in.  All other cases pass the message through. -/
def applyNoteTransposition (msg : Msg) (transposeSemitones : Option Int)
    (transform : MessageTransformation) : Msg × MessageTransformation :=
  match transposeSemitones with
  | none => (msg, transform)
  | some semitones =>
    if semitones = 0 then (msg, transform)
    else
      match msg with
      | statusByte :: key :: velocity :: rest =>
        if (0x90 ≤ statusByte ∧ statusByte ≤ 0x9F) ∨
           (0x80 ≤ statusByte ∧ statusByte ≤ 0x8F) then
          let newNote : Int := (key : Int) + semitones
          if newNote < 0 ∨ 127 < newNote then
            (statusByte :: key :: velocity :: rest, transform)
          else
            (statusByte :: newNote.toNat :: velocity :: rest,
             { transform with
                 OriginalNote := some key,
                 TransformedNote := some newNote.toNat })
        else (statusByte :: key :: velocity :: rest, transform)
      | other => (other, transform)

/-- `func shouldRouteMessage(msg, outputConfig) bool`: each configured
filter must pass (early-return AND); absent filters impose nothing. -/
def shouldRouteMessage (msg : Msg) (outputConfig : OutputConfig) : Bool :=
  (outputConfig.channelFilter.all fun cf => cf.ShouldPass msg) &&
  (outputConfig.noteRangeFilter.all fun nrf => nrf.ShouldPass msg)

/-- Lines 791-796 of the callback: fresh transformation record, channel
override first, note transposition second. -/
def transformForOutput (msg : Msg) (outputConfig : OutputConfig) :
    Msg × MessageTransformation :=
  let outputTransform : MessageTransformation := {}
  let step1 := applyChannelOverride msg outputConfig.overrideChannel outputTransform
  let step2 := applyNoteTransposition step1.1 outputConfig.transposeSemitones step1.2
  step2

/-- `func extractChannelFromMessage(msg) uint8` - one-based channel of a
channel message, 0 otherwise. -/
def extractChannelFromMessage (msg : Msg) : Nat :=
  match msg with
  | statusByte :: _ =>
      if 0x80 ≤ statusByte ∧ statusByte ≤ 0xEF then (statusByte &&& 0x0F) + 1
      else 0
  | [] => 0

/-- `func formatChannelTransformation(originalChannel, transform) string`:
`channel: a->b` when both record fields are set, else `channel: N`. -/
def formatChannelTransformation (originalChannel : Nat)
    (transform : MessageTransformation) : String :=
  match transform.OriginalChannel, transform.TransformedChannel with
  | some a, some b => "channel: " ++ toString a ++ "->" ++ toString b
  | _, _ => "channel: " ++ toString originalChannel

/-- One observable action of the `ListenTo` callback:
`send i bytes` - the call `senders[i](msgToSend)`;
`sendError i` - the `log.Printf("Error sending to ...")` line;
`routed i msg t` - the report line printed by `logSuccessfulRoute`
(carrying the original message and the per-output record);
`dropped msg` - the line printed by `logDroppedMessage`. -/
inductive LogEvent
  | send (i : Nat) (bytes : Msg)
  | sendError (i : Nat)
  | routed (i : Nat) (originalMsg : Msg) (transform : MessageTransformation)
  | dropped (originalMsg : Msg)
deriving Repr, DecidableEq

/-- Body of the dispatch loop for one output (index `i`), lines 787-806:
filter, transform, send; on send error log the error, otherwise log the
route (suppressed by `quiet`) and flag the message as routed.  The boolean
is this iteration's contribution to `anyRouted`. -/
def processOutput (sendOk : Nat → Msg → Bool) (quiet : Bool) (msg : Msg)
    (i : Nat) (outputConfig : OutputConfig) : List LogEvent × Bool :=
  if shouldRouteMessage msg outputConfig then
    let step := transformForOutput msg outputConfig
    if sendOk i step.1 then
      (LogEvent.send i step.1 ::
        (if quiet then [] else [LogEvent.routed i msg step.2]), true)
    else
      ([LogEvent.send i step.1, LogEvent.sendError i], false)
  else ([], false)

/-- The `for i, outputConfig := range config.Outputs` loop, accumulating
events and the `anyRouted` flag; `i` is the index of the first output in
the remaining list. -/
def routeLoop (sendOk : Nat → Msg → Bool) (quiet : Bool) (msg : Msg) :
    Nat → List OutputConfig → List LogEvent × Bool
  | _, [] => ([], false)
  | i, outputConfig :: rest =>
    let here := processOutput sendOk quiet msg i outputConfig
    let further := routeLoop sendOk quiet msg (i + 1) rest
    (here.1 ++ further.1, here.2 || further.2)

/-- The whole `ListenTo` callback for one incoming message (lines 783-813):
run the loop over all outputs, then log the dropped-message line iff
nothing was routed (`logDroppedMessage` returns early under `quiet`). -/
def processMessage (outputs : List OutputConfig) (sendOk : Nat → Msg → Bool)
    (quiet : Bool) (msg : Msg) : List LogEvent :=
  let run := routeLoop sendOk quiet msg 0 outputs
  run.1 ++ (if run.2 then [] else if quiet then [] else [LogEvent.dropped msg])

/-- Observer: the byte sequences handed to output `i`'s transport. -/
def sentTo (i : Nat) (evs : List LogEvent) : List Msg :=
  evs.filterMap fun e =>
    match e with
    | LogEvent.send j bytes => if j = i then some bytes else none
    | _ => none

/-- Observer: number of send-error log lines for output `i`. -/
def countSendError (i : Nat) (evs : List LogEvent) : Nat :=
  (evs.filter fun e =>
    match e with
    | LogEvent.sendError j => j == i
    | _ => false).length

/-- Observer: number of successful-route report lines for output `i`. -/
def countRouted (i : Nat) (evs : List LogEvent) : Nat :=
  (evs.filter fun e =>
    match e with
    | LogEvent.routed j _ _ => j == i
    | _ => false).length

/-- Observer: number of dropped-message report lines. -/
def countDropped (evs : List LogEvent) : Nat :=
  (evs.filter fun e =>
    match e with
    | LogEvent.dropped _ => true
    | _ => false).length

/-- Side condition of the spec's round-trip property: both transposition
steps (`+n`, then `-n`) stay within the MIDI note range `[0,127]`.  For a
Note On/Off message with key `k` this says `k + n ∈ [0,127]` (result of the
first step) and `k ∈ [0,127]` (the second step lands back on `k`); for any
other message transposition is a no-op and the condition is vacuous. -/
def transposeStepsStayInRange (msg : Msg) (n : Int) : Prop :=
  match msg with
  | s :: k :: _ :: _ =>
      ((0x90 ≤ s ∧ s ≤ 0x9F) ∨ (0x80 ≤ s ∧ s ≤ 0x8F)) →
      (0 ≤ (k : Int) + n ∧ (k : Int) + n ≤ 127 ∧ k ≤ 127)
  | _ => True

/- ------------------------------------------------------------------ -/
/- Helper lemmas (shared).                                             -/
/- ------------------------------------------------------------------ -/

theorem land_fifteen (s : Nat) : s &&& 15 = s % 16 := by
  simpa using Nat.and_pow_two_sub_one_eq_mod s 4

set_option maxRecDepth 10000 in
theorem statusOr_eq : ∀ s < 256, ∀ b < 16, ((s &&& 240) ||| b) = s / 16 * 16 + b := by
  decide

/-- The rewritten status byte of `applyChannelOverride`, in arithmetic
form: high nibble kept, low nibble replaced by `oc - 1`. -/
theorem overrideStatusByte (s oc : Nat) (hs : 0x80 ≤ s ∧ s ≤ 0xEF)
    (hoc : 1 ≤ oc ∧ oc ≤ 16) :
    ((s &&& 0xF0) ||| (((oc + 255) % 256) &&& 0x0F)) = s / 16 * 16 + (oc - 1) := by
  have hb : ((oc + 255) % 256) &&& 0x0F = oc - 1 := by
    rw [land_fifteen]; omega
  rw [hb]
  exact statusOr_eq s (by omega) (oc - 1) (by omega)

theorem applyChannelOverride_channelMsg (s : Nat) (rest : List Nat) (oc : Nat)
    (t : MessageTransformation) (hs : 0x80 ≤ s ∧ s ≤ 0xEF) :
    applyChannelOverride (s :: rest) (some oc) t =
      (((s &&& 0xF0) ||| (((oc + 255) % 256) &&& 0x0F)) :: rest,
       { t with OriginalChannel := some ((s &&& 0x0F) + 1),
                TransformedChannel := some oc }) := by
  simp [applyChannelOverride, hs]

theorem applyChannelOverride_systemMsg (s : Nat) (rest : List Nat) (oc : Nat)
    (t : MessageTransformation) (hs : ¬(0x80 ≤ s ∧ s ≤ 0xEF)) :
    applyChannelOverride (s :: rest) (some oc) t = (s :: rest, t) := by
  simp [applyChannelOverride, hs]

theorem applyNoteTransposition_zero (msg : Msg) (t : MessageTransformation) :
    applyNoteTransposition msg (some 0) t = (msg, t) := by
  simp [applyNoteTransposition]

theorem applyNoteTransposition_note_inRange (s k v : Nat) (rest : List Nat)
    (n : Int) (t : MessageTransformation) (hn : n ≠ 0)
    (hs : (0x90 ≤ s ∧ s ≤ 0x9F) ∨ (0x80 ≤ s ∧ s ≤ 0x8F))
    (h0 : 0 ≤ (k : Int) + n) (h127 : (k : Int) + n ≤ 127) :
    applyNoteTransposition (s :: k :: v :: rest) (some n) t =
      (s :: ((k : Int) + n).toNat :: v :: rest,
       { t with OriginalNote := some k,
                TransformedNote := some ((k : Int) + n).toNat }) := by
  have hr : ¬((k : Int) + n < 0 ∨ 127 < (k : Int) + n) := by omega
  simp [applyNoteTransposition, hn, hs, hr]

theorem applyNoteTransposition_note_outOfRange (s k v : Nat) (rest : List Nat)
    (n : Int) (t : MessageTransformation)
    (hr : (k : Int) + n < 0 ∨ 127 < (k : Int) + n) :
    applyNoteTransposition (s :: k :: v :: rest) (some n) t =
      (s :: k :: v :: rest, t) := by
  by_cases hn : n = 0
  · subst hn; exact applyNoteTransposition_zero _ _
  · by_cases hs : (0x90 ≤ s ∧ s ≤ 0x9F) ∨ (0x80 ≤ s ∧ s ≤ 0x8F)
    · simp [applyNoteTransposition, hn, hs, hr]
    · simp [applyNoteTransposition, hn, hs]

theorem applyNoteTransposition_notNote (s k v : Nat) (rest : List Nat)
    (ts : Option Int) (t : MessageTransformation)
    (hs : ¬((0x90 ≤ s ∧ s ≤ 0x9F) ∨ (0x80 ≤ s ∧ s ≤ 0x8F))) :
    applyNoteTransposition (s :: k :: v :: rest) ts t =
      (s :: k :: v :: rest, t) := by
  cases ts with
  | none => rfl
  | some n =>
    by_cases hn : n = 0
    · subst hn; exact applyNoteTransposition_zero _ _
    · simp [applyNoteTransposition, hn, hs]

theorem applyNoteTransposition_short (msg : Msg) (ts : Option Int)
    (t : MessageTransformation) (h : msg.length < 3) :
    applyNoteTransposition msg ts t = (msg, t) := by
  cases ts with
  | none => rfl
  | some n =>
    match msg, h with
    | [], _ => simp [applyNoteTransposition]
    | [a], _ => simp [applyNoteTransposition]
    | [a, b], _ => simp [applyNoteTransposition]

/-- `ChannelFilter.ShouldPass` on any nonempty message reduces to
comparing the status byte's low nibble plus one with the configured
channel: the Note On/Off branches and the raw-status fallback agree. -/
theorem channelFilter_shouldPass_cons (cf : ChannelFilter) (s : Nat)
    (rest : List Nat) :
    cf.ShouldPass (s :: rest) = ((s &&& 0x0F) + 1 == cf.channel) := by
  match rest with
  | [] => simp [ChannelFilter.ShouldPass, getNoteOn, getNoteOff]
  | [k] => simp [ChannelFilter.ShouldPass, getNoteOn, getNoteOff]
  | k :: v :: r =>
    by_cases h9 : 0x90 ≤ s ∧ s ≤ 0x9F
    · simp [ChannelFilter.ShouldPass, getNoteOn, h9]
    · by_cases h8 : 0x80 ≤ s ∧ s ≤ 0x8F
      · simp [ChannelFilter.ShouldPass, getNoteOn, getNoteOff, h9, h8]
      · simp [ChannelFilter.ShouldPass, getNoteOn, getNoteOff, h9, h8]

theorem noteRangeFilter_shouldPass_note (nrf : NoteRangeFilter) (s k v : Nat)
    (rest : List Nat)
    (hs : (0x90 ≤ s ∧ s ≤ 0x9F) ∨ (0x80 ≤ s ∧ s ≤ 0x8F)) :
    nrf.ShouldPass (s :: k :: v :: rest) =
      (nrf.minNote ≤ k && k ≤ nrf.maxNote) := by
  rcases hs with h9 | h8
  · simp [NoteRangeFilter.ShouldPass, getNoteOn, h9]
  · have h9 : ¬(0x90 ≤ s ∧ s ≤ 0x9F) := by omega
    simp [NoteRangeFilter.ShouldPass, getNoteOn, getNoteOff, h9, h8]

theorem noteRangeFilter_shouldPass_nonNote (nrf : NoteRangeFilter) (msg : Msg)
    (h1 : getNoteOn msg = none) (h2 : getNoteOff msg = none) :
    nrf.ShouldPass msg = true := by
  simp [NoteRangeFilter.ShouldPass, h1, h2]

/- Observer lemmas about one loop iteration. -/

theorem processOutput_snd (sendOk : Nat → Msg → Bool) (quiet : Bool) (msg : Msg)
    (i : Nat) (cfg : OutputConfig) :
    (processOutput sendOk quiet msg i cfg).2 =
      (shouldRouteMessage msg cfg && sendOk i (transformForOutput msg cfg).1) := by
  by_cases h : shouldRouteMessage msg cfg = true
  · by_cases h2 : sendOk i (transformForOutput msg cfg).1 = true
    · simp [processOutput, h, h2]
    · simp [processOutput, h, Bool.not_eq_true] at h2 ⊢
      simp [h2]
  · simp [processOutput, Bool.not_eq_true] at h ⊢
    simp [h]

theorem sentTo_processOutput_self (sendOk : Nat → Msg → Bool) (quiet : Bool)
    (msg : Msg) (i : Nat) (cfg : OutputConfig) :
    sentTo i (processOutput sendOk quiet msg i cfg).1 =
      (if shouldRouteMessage msg cfg then [(transformForOutput msg cfg).1]
       else []) := by
  by_cases h : shouldRouteMessage msg cfg = true
  · by_cases h2 : sendOk i (transformForOutput msg cfg).1 = true
    · cases quiet <;> simp [processOutput, sentTo, h, h2]
    · simp [Bool.not_eq_true] at h2
      cases quiet <;> simp [processOutput, sentTo, h, h2]
  · simp [Bool.not_eq_true] at h
    simp [processOutput, sentTo, h]

theorem sentTo_processOutput_ne (sendOk : Nat → Msg → Bool) (quiet : Bool)
    (msg : Msg) (i j : Nat) (cfg : OutputConfig) (hne : j ≠ i) :
    sentTo i (processOutput sendOk quiet msg j cfg).1 = [] := by
  by_cases h : shouldRouteMessage msg cfg = true
  · by_cases h2 : sendOk j (transformForOutput msg cfg).1 = true
    · cases quiet <;> simp [processOutput, sentTo, h, h2, hne]
    · simp [Bool.not_eq_true] at h2
      cases quiet <;> simp [processOutput, sentTo, h, h2, hne]
  · simp [Bool.not_eq_true] at h
    simp [processOutput, sentTo, h]

theorem countSendError_processOutput_self (sendOk : Nat → Msg → Bool)
    (quiet : Bool) (msg : Msg) (i : Nat) (cfg : OutputConfig) :
    countSendError i (processOutput sendOk quiet msg i cfg).1 =
      (if shouldRouteMessage msg cfg = true ∧
          sendOk i (transformForOutput msg cfg).1 = false then 1 else 0) := by
  by_cases h : shouldRouteMessage msg cfg = true
  · by_cases h2 : sendOk i (transformForOutput msg cfg).1 = true
    · cases quiet <;> simp [processOutput, countSendError, h, h2]
    · simp [Bool.not_eq_true] at h2
      cases quiet <;> simp [processOutput, countSendError, h, h2]
  · simp [Bool.not_eq_true] at h
    simp [processOutput, countSendError, h]

theorem countSendError_processOutput_ne (sendOk : Nat → Msg → Bool)
    (quiet : Bool) (msg : Msg) (i j : Nat) (cfg : OutputConfig) (hne : j ≠ i) :
    countSendError i (processOutput sendOk quiet msg j cfg).1 = 0 := by
  by_cases h : shouldRouteMessage msg cfg = true
  · by_cases h2 : sendOk j (transformForOutput msg cfg).1 = true
    · cases quiet <;> simp [processOutput, countSendError, h, h2, hne]
    · simp [Bool.not_eq_true] at h2
      cases quiet <;> simp [processOutput, countSendError, h, h2, hne]
  · simp [Bool.not_eq_true] at h
    simp [processOutput, countSendError, h]

theorem countRouted_processOutput_self (sendOk : Nat → Msg → Bool) (msg : Msg)
    (i : Nat) (cfg : OutputConfig) :
    countRouted i (processOutput sendOk false msg i cfg).1 =
      (if shouldRouteMessage msg cfg = true ∧
          sendOk i (transformForOutput msg cfg).1 = true then 1 else 0) := by
  by_cases h : shouldRouteMessage msg cfg = true
  · by_cases h2 : sendOk i (transformForOutput msg cfg).1 = true
    · simp [processOutput, countRouted, h, h2]
    · simp [Bool.not_eq_true] at h2
      simp [processOutput, countRouted, h, h2]
  · simp [Bool.not_eq_true] at h
    simp [processOutput, countRouted, h]

theorem countRouted_processOutput_ne (sendOk : Nat → Msg → Bool) (quiet : Bool)
    (msg : Msg) (i j : Nat) (cfg : OutputConfig) (hne : j ≠ i) :
    countRouted i (processOutput sendOk quiet msg j cfg).1 = 0 := by
  by_cases h : shouldRouteMessage msg cfg = true
  · by_cases h2 : sendOk j (transformForOutput msg cfg).1 = true
    · cases quiet <;> simp [processOutput, countRouted, h, h2, hne]
    · simp [Bool.not_eq_true] at h2
      cases quiet <;> simp [processOutput, countRouted, h, h2, hne]
  · simp [Bool.not_eq_true] at h
    simp [processOutput, countRouted, h]

theorem countDropped_processOutput (sendOk : Nat → Msg → Bool) (quiet : Bool)
    (msg : Msg) (i : Nat) (cfg : OutputConfig) :
    countDropped (processOutput sendOk quiet msg i cfg).1 = 0 := by
  by_cases h : shouldRouteMessage msg cfg = true
  · by_cases h2 : sendOk i (transformForOutput msg cfg).1 = true
    · cases quiet <;> simp [processOutput, countDropped, h, h2]
    · simp [Bool.not_eq_true] at h2
      cases quiet <;> simp [processOutput, countDropped, h, h2]
  · simp [Bool.not_eq_true] at h
    simp [processOutput, countDropped, h]

/- Observer lemmas about the whole loop. -/

theorem sentTo_append (i : Nat) (a b : List LogEvent) :
    sentTo i (a ++ b) = sentTo i a ++ sentTo i b := by
  simp [sentTo, List.filterMap_append]

theorem countSendError_append (i : Nat) (a b : List LogEvent) :
    countSendError i (a ++ b) = countSendError i a + countSendError i b := by
  simp [countSendError, List.filter_append]

theorem countRouted_append (i : Nat) (a b : List LogEvent) :
    countRouted i (a ++ b) = countRouted i a + countRouted i b := by
  simp [countRouted, List.filter_append]

theorem countDropped_append (a b : List LogEvent) :
    countDropped (a ++ b) = countDropped a + countDropped b := by
  simp [countDropped, List.filter_append]

theorem sentTo_routeLoop_lt (sendOk : Nat → Msg → Bool) (quiet : Bool)
    (msg : Msg) : ∀ (outs : List OutputConfig) (start i : Nat), i < start →
    sentTo i (routeLoop sendOk quiet msg start outs).1 = [] := by
  intro outs
  induction outs with
  | nil => intro start i _; rfl
  | cons cfg rest ih =>
    intro start i h
    simp only [routeLoop]
    rw [sentTo_append, sentTo_processOutput_ne _ _ _ _ _ _ (by omega),
        ih (start + 1) i (by omega)]
    rfl

theorem sentTo_routeLoop_get (sendOk : Nat → Msg → Bool) (quiet : Bool)
    (msg : Msg) : ∀ (outs : List OutputConfig) (start i : Nat)
    (hi : i < outs.length),
    sentTo (start + i) (routeLoop sendOk quiet msg start outs).1 =
      (if shouldRouteMessage msg (outs.get ⟨i, hi⟩)
       then [(transformForOutput msg (outs.get ⟨i, hi⟩)).1] else []) := by
  intro outs
  induction outs with
  | nil => intro start i hi; exact absurd hi (by simp)
  | cons cfg rest ih =>
    intro start i hi
    simp only [routeLoop]
    rw [sentTo_append]
    cases i with
    | zero =>
      rw [Nat.add_zero, sentTo_processOutput_self,
          sentTo_routeLoop_lt _ _ _ _ _ _ (by omega)]
      simp [List.get]
    | succ i2 =>
      rw [sentTo_processOutput_ne _ _ _ _ _ _ (by omega),
          show start + (i2 + 1) = (start + 1) + i2 by omega,
          ih (start + 1) i2 (by simpa using hi)]
      simp [List.get]

theorem countSendError_routeLoop_lt (sendOk : Nat → Msg → Bool) (quiet : Bool)
    (msg : Msg) : ∀ (outs : List OutputConfig) (start i : Nat), i < start →
    countSendError i (routeLoop sendOk quiet msg start outs).1 = 0 := by
  intro outs
  induction outs with
  | nil => intro start i _; rfl
  | cons cfg rest ih =>
    intro start i h
    simp only [routeLoop]
    rw [countSendError_append, countSendError_processOutput_ne _ _ _ _ _ _ (by omega),
        ih (start + 1) i (by omega)]

theorem countSendError_routeLoop_get (sendOk : Nat → Msg → Bool) (quiet : Bool)
    (msg : Msg) : ∀ (outs : List OutputConfig) (start i : Nat)
    (hi : i < outs.length),
    countSendError (start + i) (routeLoop sendOk quiet msg start outs).1 =
      (if shouldRouteMessage msg (outs.get ⟨i, hi⟩) = true ∧
          sendOk (start + i) (transformForOutput msg (outs.get ⟨i, hi⟩)).1 = false
       then 1 else 0) := by
  intro outs
  induction outs with
  | nil => intro start i hi; exact absurd hi (by simp)
  | cons cfg rest ih =>
    intro start i hi
    simp only [routeLoop]
    rw [countSendError_append]
    cases i with
    | zero =>
      rw [Nat.add_zero, countSendError_processOutput_self,
          countSendError_routeLoop_lt _ _ _ _ _ _ (by omega)]
      simp [List.get]
    | succ i2 =>
      rw [countSendError_processOutput_ne _ _ _ _ _ _ (by omega),
          show start + (i2 + 1) = (start + 1) + i2 by omega,
          ih (start + 1) i2 (by simpa using hi)]
      simp [List.get, show (start + 1) + i2 = start + (i2 + 1) by omega]

theorem countRouted_routeLoop_lt (sendOk : Nat → Msg → Bool) (quiet : Bool)
    (msg : Msg) : ∀ (outs : List OutputConfig) (start i : Nat), i < start →
    countRouted i (routeLoop sendOk quiet msg start outs).1 = 0 := by
  intro outs
  induction outs with
  | nil => intro start i _; rfl
  | cons cfg rest ih =>
    intro start i h
    simp only [routeLoop]
    rw [countRouted_append, countRouted_processOutput_ne _ _ _ _ _ _ (by omega),
        ih (start + 1) i (by omega)]

theorem countRouted_routeLoop_get (sendOk : Nat → Msg → Bool)
    (msg : Msg) : ∀ (outs : List OutputConfig) (start i : Nat)
    (hi : i < outs.length),
    countRouted (start + i) (routeLoop sendOk false msg start outs).1 =
      (if shouldRouteMessage msg (outs.get ⟨i, hi⟩) = true ∧
          sendOk (start + i) (transformForOutput msg (outs.get ⟨i, hi⟩)).1 = true
       then 1 else 0) := by
  intro outs
  induction outs with
  | nil => intro start i hi; exact absurd hi (by simp)
  | cons cfg rest ih =>
    intro start i hi
    simp only [routeLoop]
    rw [countRouted_append]
    cases i with
    | zero =>
      rw [Nat.add_zero, countRouted_processOutput_self,
          countRouted_routeLoop_lt _ _ _ _ _ _ (by omega)]
      simp [List.get]
    | succ i2 =>
      rw [countRouted_processOutput_ne _ _ _ _ _ _ (by omega),
          show start + (i2 + 1) = (start + 1) + i2 by omega,
          ih (start + 1) i2 (by simpa using hi)]
      simp [List.get, show (start + 1) + i2 = start + (i2 + 1) by omega]

theorem countDropped_routeLoop (sendOk : Nat → Msg → Bool) (quiet : Bool)
    (msg : Msg) : ∀ (outs : List OutputConfig) (start : Nat),
    countDropped (routeLoop sendOk quiet msg start outs).1 = 0 := by
  intro outs
  induction outs with
  | nil => intro start; rfl
  | cons cfg rest ih =>
    intro start
    simp only [routeLoop]
    rw [countDropped_append, countDropped_processOutput, ih (start + 1)]

theorem routeLoop_snd_iff (sendOk : Nat → Msg → Bool) (quiet : Bool)
    (msg : Msg) : ∀ (outs : List OutputConfig) (start : Nat),
    ((routeLoop sendOk quiet msg start outs).2 = true ↔
      ∃ i, ∃ hi : i < outs.length,
        shouldRouteMessage msg (outs.get ⟨i, hi⟩) = true ∧
        sendOk (start + i) (transformForOutput msg (outs.get ⟨i, hi⟩)).1 = true) := by
  intro outs
  induction outs with
  | nil =>
    intro start
    simp [routeLoop]
  | cons cfg rest ih =>
    intro start
    simp only [routeLoop, Bool.or_eq_true, processOutput_snd, Bool.and_eq_true]
    rw [ih (start + 1)]
    constructor
    · rintro (⟨h1, h2⟩ | ⟨i, hi, h1, h2⟩)
      · exact ⟨0, by simp, by simpa using h1, by simpa using h2⟩
      · refine ⟨i + 1, by simpa using Nat.succ_lt_succ hi, by simpa using h1, ?_⟩
        rw [show start + (i + 1) = (start + 1) + i by omega]
        simpa using h2
    · rintro ⟨i, hi, h1, h2⟩
      cases i with
      | zero =>
        exact Or.inl ⟨by simpa using h1, by simpa using h2⟩
      | succ i2 =>
        refine Or.inr ⟨i2, by simpa using hi, by simpa using h1, ?_⟩
        rw [show (start + 1) + i2 = start + (i2 + 1) by omega]
        simpa using h2

theorem applyChannelOverride_fst (msg : Msg) (o : Option Nat)
    (t t2 : MessageTransformation) :
    (applyChannelOverride msg o t).1 = (applyChannelOverride msg o t2).1 := by
  cases o with
  | none => rfl
  | some oc =>
    cases msg with
    | nil => rfl
    | cons s rest =>
      by_cases h : 0x80 ≤ s ∧ s ≤ 0xEF <;> simp [applyChannelOverride, h]

theorem applyChannelOverride_length (msg : Msg) (o : Option Nat)
    (t : MessageTransformation) :
    ((applyChannelOverride msg o t).1).length = msg.length := by
  cases o with
  | none => rfl
  | some oc =>
    cases msg with
    | nil => rfl
    | cons s rest =>
      by_cases h : 0x80 ≤ s ∧ s ≤ 0xEF <;> simp [applyChannelOverride, h]

/- ------------------------------------------------------------------ -/
/- Claim theorems.                                                     -/
/- ------------------------------------------------------------------ -/

/-- Claim C1, counterexample: the spec says a message with no channel
information (system message) always passes the channel filter, but
`ShouldPass` compares the low nibble of ANY nonempty message's status byte
to the configured channel.  The system realtime message `0xF8` (timing
clock, status outside the channel-message range `0x80..0xEF`) is rejected
by a filter configured for channel 1, because `(0xF8 & 0x0F) + 1 = 9`. -/
theorem channelFilter_system_message_counterexample :
    ChannelFilter.ShouldPass { channel := 1 } [0xF8] = false := by decide

/-- Claim C1, amended: for Note On/Off messages the filter passes iff the
decoded zero-based channel plus 1 equals the configured channel; for EVERY
other nonempty message - whether its status byte is in the channel-message
range or not - it compares the status byte's low nibble plus 1 the same
way (so system messages are filtered by their meaningless low nibble, not
vacuously passed); only the empty message passes vacuously. -/
theorem channelFilter_shouldPass_spec (cf : ChannelFilter) (msg : Msg) :
    (∀ channel key velocity, getNoteOn msg = some (channel, key, velocity) →
      (cf.ShouldPass msg = true ↔ channel + 1 = cf.channel)) ∧
    (∀ channel key velocity, getNoteOff msg = some (channel, key, velocity) →
      (cf.ShouldPass msg = true ↔ channel + 1 = cf.channel)) ∧
    (∀ s rest, msg = s :: rest →
      (cf.ShouldPass msg = true ↔ s % 16 + 1 = cf.channel)) ∧
    (msg = [] → cf.ShouldPass msg = true) := by
  refine ⟨?_, ?_, ?_, ?_⟩
  · intro channel key velocity h
    cases msg with
    | nil => simp [getNoteOn] at h
    | cons s m1 =>
      cases m1 with
      | nil => simp [getNoteOn] at h
      | cons k m2 =>
        cases m2 with
        | nil => simp [getNoteOn] at h
        | cons v r =>
          rw [channelFilter_shouldPass_cons]
          by_cases hc : 0x90 ≤ s ∧ s ≤ 0x9F
          · simp [getNoteOn, hc] at h
            obtain ⟨h1, -, -⟩ := h
            subst h1
            simp
          · simp [getNoteOn, hc] at h
  · intro channel key velocity h
    cases msg with
    | nil => simp [getNoteOff] at h
    | cons s m1 =>
      cases m1 with
      | nil => simp [getNoteOff] at h
      | cons k m2 =>
        cases m2 with
        | nil => simp [getNoteOff] at h
        | cons v r =>
          rw [channelFilter_shouldPass_cons]
          by_cases hc : 0x80 ≤ s ∧ s ≤ 0x8F
          · simp [getNoteOff, hc] at h
            obtain ⟨h1, -, -⟩ := h
            subst h1
            simp
          · simp [getNoteOff, hc] at h
  · intro s rest hm
    subst hm
    rw [channelFilter_shouldPass_cons]
    simp [land_fifteen]
  · intro hm; subst hm; rfl

/-- Witness for C1's amended theorem: the clock message `0xF8` does pass a
filter configured for channel 9 (its low nibble plus one). -/
theorem channelFilter_shouldPass_spec_witness :
    ChannelFilter.ShouldPass { channel := 9 } [0xF8] = true :=
  ((channelFilter_shouldPass_spec { channel := 9 } [0xF8]).2.2.1
    0xF8 [] rfl).mpr (by decide)

/-- Claim C2: `applyNoteTransposition` passes the message through when the
semitone count is unset or zero or the message is not a note message;
on a Note On/Off with a nonzero count it computes `key + semitones` over
`Int`, returns the original bytes when the result is outside `[0,127]`
(no clamping), and otherwise changes exactly the note-number byte. -/
theorem applyNoteTransposition_spec (msg : Msg) (n : Int)
    (t : MessageTransformation) :
    (applyNoteTransposition msg none t = (msg, t)) ∧
    (applyNoteTransposition msg (some 0) t = (msg, t)) ∧
    (∀ s k v rest, msg = s :: k :: v :: rest →
      ((0x90 ≤ s ∧ s ≤ 0x9F) ∨ (0x80 ≤ s ∧ s ≤ 0x8F)) → n ≠ 0 →
      (((k : Int) + n < 0 ∨ 127 < (k : Int) + n) →
        applyNoteTransposition msg (some n) t = (msg, t)) ∧
      (0 ≤ (k : Int) + n → (k : Int) + n ≤ 127 →
        (applyNoteTransposition msg (some n) t).1 =
          s :: ((k : Int) + n).toNat :: v :: rest)) ∧
    ((getNoteOn msg = none ∧ getNoteOff msg = none) →
      applyNoteTransposition msg (some n) t = (msg, t)) := by
  refine ⟨rfl, applyNoteTransposition_zero msg t, ?_, ?_⟩
  · intro s k v rest hm hs hn
    subst hm
    refine ⟨fun hr => applyNoteTransposition_note_outOfRange s k v rest n t hr, ?_⟩
    intro h0 h127
    rw [applyNoteTransposition_note_inRange s k v rest n t hn hs h0 h127]
  · rintro ⟨h1, h2⟩
    cases msg with
    | nil => exact applyNoteTransposition_short _ _ _ (by simp)
    | cons s m1 =>
      cases m1 with
      | nil => exact applyNoteTransposition_short _ _ _ (by simp)
      | cons k m2 =>
        cases m2 with
        | nil => exact applyNoteTransposition_short _ _ _ (by simp)
        | cons v r =>
          have hs9 : ¬(0x90 ≤ s ∧ s ≤ 0x9F) := by
            intro hc; simp [getNoteOn, hc] at h1
          have hs8 : ¬(0x80 ≤ s ∧ s ≤ 0x8F) := by
            intro hc; simp [getNoteOff, hc] at h2
          exact applyNoteTransposition_notNote s k v r (some n) t (by tauto)

/-- Witness for C2: the spec's boundary example (key 125, +5 semitones,
would be 130) returns the message byte-identical, and an in-range
transposition (key 60, +5) rewrites only the note byte. -/
theorem applyNoteTransposition_spec_witness :
    applyNoteTransposition [0x90, 125, 100] (some 5) {} = ([0x90, 125, 100], {}) ∧
    (applyNoteTransposition [0x90, 60, 100] (some 5) {}).1 = [0x90, 65, 100] := by
  constructor
  · exact ((applyNoteTransposition_spec [0x90, 125, 100] 5 {}).2.2.1
      0x90 125 100 [] rfl (by decide) (by decide)).1 (by decide)
  · exact (((applyNoteTransposition_spec [0x90, 60, 100] 5 {}).2.2.1
      0x90 60 100 [] rfl (by decide) (by decide)).2 (by decide) (by decide)).trans
      (by decide)

/-- Claim C3: `applyChannelOverride` on a channel message (status byte in
`0x80..0xEF`) with a configured override in `[1,16]` replaces exactly the
status byte's low nibble with `overrideChannel - 1`, keeps the high nibble
and all data bytes, and records the original and new one-based channels;
with no override, or on a system message, or on an empty message, the
bytes come back equal to the input and the record is untouched. -/
theorem applyChannelOverride_spec (msg : Msg) (oc : Nat)
    (t : MessageTransformation) :
    (applyChannelOverride msg none t = (msg, t)) ∧
    (∀ s rest, msg = s :: rest → 0x80 ≤ s → s ≤ 0xEF → 1 ≤ oc → oc ≤ 16 →
      ∃ sNew,
        (applyChannelOverride msg (some oc) t).1 = sNew :: rest ∧
        sNew % 16 = oc - 1 ∧
        sNew / 16 = s / 16 ∧
        (applyChannelOverride msg (some oc) t).2 =
          { t with OriginalChannel := some (s % 16 + 1),
                   TransformedChannel := some oc }) ∧
    (∀ s rest, msg = s :: rest → ¬(0x80 ≤ s ∧ s ≤ 0xEF) →
      applyChannelOverride msg (some oc) t = (msg, t)) ∧
    (msg = [] → applyChannelOverride msg (some oc) t = (msg, t)) := by
  refine ⟨rfl, ?_, ?_, ?_⟩
  · intro s rest hm h1 h2 h3 h4
    subst hm
    rw [applyChannelOverride_channelMsg s rest oc t ⟨h1, h2⟩]
    refine ⟨s / 16 * 16 + (oc - 1), ?_, by omega, by omega, ?_⟩
    · simp [overrideStatusByte s oc ⟨h1, h2⟩ ⟨h3, h4⟩]
    · simp [land_fifteen]
  · intro s rest hm hs
    subst hm
    exact applyChannelOverride_systemMsg s rest oc t hs
  · intro hm; subst hm; rfl

/-- Witness for C3: a Control Change on wire channel 5 (status `0xB5`,
one-based channel 6) overridden to channel 2 becomes `0xB1` with data
bytes intact, and the record holds `6` and `2`. -/
theorem applyChannelOverride_spec_witness :
    (applyChannelOverride [0xB5, 7, 100] (some 2) {}).1 = [0xB1, 7, 100] ∧
    (applyChannelOverride [0xB5, 7, 100] (some 2) {}).2 =
      { OriginalChannel := some 6, TransformedChannel := some 2 } := by
  obtain ⟨sNew, ha, hb, hc, hd⟩ :=
    (applyChannelOverride_spec [0xB5, 7, 100] 2 {}).2.1 0xB5 [7, 100] rfl
      (by decide) (by decide) (by decide) (by decide)
  have hs : sNew = 0xB1 := by omega
  subst hs
  exact ⟨ha, hd.trans (by decide)⟩

/-- Claim C7: `NoteRangeFilter.ShouldPass` passes a Note On/Off message iff
`minNote <= key <= maxNote` (inclusive), and passes every non-note message
unconditionally. -/
theorem noteRangeFilter_spec (nrf : NoteRangeFilter) (msg : Msg) :
    (∀ s k v rest, msg = s :: k :: v :: rest →
      ((0x90 ≤ s ∧ s ≤ 0x9F) ∨ (0x80 ≤ s ∧ s ≤ 0x8F)) →
      (nrf.ShouldPass msg = true ↔ nrf.minNote ≤ k ∧ k ≤ nrf.maxNote)) ∧
    ((getNoteOn msg = none ∧ getNoteOff msg = none) →
      nrf.ShouldPass msg = true) := by
  constructor
  · intro s k v rest hm hs
    subst hm
    rw [noteRangeFilter_shouldPass_note nrf s k v rest hs]
    simp
  · rintro ⟨h1, h2⟩
    exact noteRangeFilter_shouldPass_nonNote nrf msg h1 h2

/-- Witness for C7: key 60 is rejected by range 36-59, while a Control
Change always passes the same filter. -/
theorem noteRangeFilter_spec_witness :
    NoteRangeFilter.ShouldPass { minNote := 36, maxNote := 59 } [0x90, 60, 100] = false ∧
    NoteRangeFilter.ShouldPass { minNote := 36, maxNote := 59 } [0xB0, 1, 2] = true := by
  constructor
  · have h := (noteRangeFilter_spec { minNote := 36, maxNote := 59 }
      [0x90, 60, 100]).1 0x90 60 100 [] rfl (by decide)
    have h2 : ¬(36 ≤ 60 ∧ 60 ≤ 59) := by decide
    exact Bool.eq_false_iff.mpr fun hb => h2 (h.mp hb)
  · exact (noteRangeFilter_spec { minNote := 36, maxNote := 59 }
      [0xB0, 1, 2]).2 ⟨by decide, by decide⟩

/-- Claim C10: on a channel message with an override configured,
`applyChannelOverride` fills in the record's original and transformed
channel unconditionally - also when the override equals the message's own
channel (`oc = s % 16 + 1`) - so `formatChannelTransformation` renders the
arrow form `channel: N->N`, while a record with no channel fields set is
rendered in the plain `channel: N` form. -/
theorem channelOverride_equalChannel_report (s oc : Nat) (rest : List Nat)
    (t : MessageTransformation) (h1 : 0x80 ≤ s) (h2 : s ≤ 0xEF)
    (hoc : oc = s % 16 + 1) :
    (applyChannelOverride (s :: rest) (some oc) t).2.OriginalChannel = some oc ∧
    (applyChannelOverride (s :: rest) (some oc) t).2.TransformedChannel = some oc ∧
    (∀ c, formatChannelTransformation c
        (applyChannelOverride (s :: rest) (some oc) t).2 =
      "channel: " ++ toString oc ++ "->" ++ toString oc) ∧
    (∀ c t0, t0.OriginalChannel = none →
      formatChannelTransformation c t0 = "channel: " ++ toString c) := by
  rw [applyChannelOverride_channelMsg s rest oc t ⟨h1, h2⟩]
  refine ⟨?_, rfl, ?_, ?_⟩
  · simp [land_fifteen, hoc]
  · intro c
    simp [formatChannelTransformation, land_fifteen, hoc]
  · intro c t0 h0
    simp [formatChannelTransformation, h0]

/-- Witness for C10: a Note On on channel 6 overridden to channel 6 is
reported as `channel: 6->6`, distinct from the plain `channel: 6`. -/
theorem channelOverride_equalChannel_report_witness :
    (applyChannelOverride [0x95, 60, 100] (some 6) {}).2.OriginalChannel = some 6 ∧
    (applyChannelOverride [0x95, 60, 100] (some 6) {}).2.TransformedChannel = some 6 ∧
    formatChannelTransformation 6 (applyChannelOverride [0x95, 60, 100] (some 6) {}).2 =
      "channel: 6->6" ∧
    formatChannelTransformation 6 ({} : MessageTransformation) = "channel: 6" ∧
    "channel: 6->6" ≠ "channel: 6" := by
  obtain ⟨ha, hb, hc, hd⟩ :=
    channelOverride_equalChannel_report 0x95 6 [60, 100] {}
      (by decide) (by decide) (by decide)
  exact ⟨ha, hb, (hc 6).trans (by decide), (hd 6 {} rfl).trans (by decide), by decide⟩

/-- Claim C8: the dispatch pipeline applies the channel override first and
the note transposition second (first conjunct, definitional), and for any
message, any override in `[1,16]` and any semitone option the two orders
produce byte-identical results (second conjunct): the override only
rewrites the status byte's low nibble, which neither changes the Note
On/Off classification nor the key byte the transposition looks at. -/
theorem transformOrder_immaterial (msg : Msg) (oc : Nat) (ts : Option Int)
    (t1 t2 t3 t4 : MessageTransformation) (hoc1 : 1 ≤ oc) (hoc2 : oc ≤ 16) :
    (∀ cfg : OutputConfig, transformForOutput msg cfg =
      applyNoteTransposition (applyChannelOverride msg cfg.overrideChannel {}).1
        cfg.transposeSemitones (applyChannelOverride msg cfg.overrideChannel {}).2) ∧
    ((applyNoteTransposition (applyChannelOverride msg (some oc) t1).1 ts t2).1 =
     (applyChannelOverride (applyNoteTransposition msg ts t3).1 (some oc) t4).1) := by
  refine ⟨fun cfg => rfl, ?_⟩
  cases ts with
  | none =>
    show (applyChannelOverride msg (some oc) t1).1 =
      (applyChannelOverride msg (some oc) t4).1
    exact applyChannelOverride_fst msg (some oc) t1 t4
  | some n =>
    by_cases hn : n = 0
    · subst hn
      rw [applyNoteTransposition_zero, applyNoteTransposition_zero]
      exact applyChannelOverride_fst msg (some oc) t1 t4
    · rcases Nat.lt_or_ge msg.length 3 with hlen | hlen
      · rw [applyNoteTransposition_short msg (some n) t3 hlen,
            applyNoteTransposition_short _ (some n) t2
              (by rw [applyChannelOverride_length]; exact hlen)]
        exact applyChannelOverride_fst msg (some oc) t1 t4
      · obtain ⟨s, k, v, rest, rfl⟩ : ∃ s k v rest, msg = s :: k :: v :: rest := by
          match msg, hlen with
          | s :: k :: v :: rest, _ => exact ⟨s, k, v, rest, rfl⟩
        by_cases hch : 0x80 ≤ s ∧ s ≤ 0xEF
        · have hs2 := overrideStatusByte s oc hch ⟨hoc1, hoc2⟩
          by_cases hnote : (0x90 ≤ s ∧ s ≤ 0x9F) ∨ (0x80 ≤ s ∧ s ≤ 0x8F)
          · have hnote2 : (0x90 ≤ s / 16 * 16 + (oc - 1) ∧
                s / 16 * 16 + (oc - 1) ≤ 0x9F) ∨
                (0x80 ≤ s / 16 * 16 + (oc - 1) ∧
                 s / 16 * 16 + (oc - 1) ≤ 0x8F) := by omega
            by_cases hr : (k : Int) + n < 0 ∨ 127 < (k : Int) + n
            · rw [applyChannelOverride_channelMsg s (k :: v :: rest) oc t1 hch, hs2,
                  applyNoteTransposition_note_outOfRange _ k v rest n _ hr,
                  applyNoteTransposition_note_outOfRange s k v rest n t3 hr,
                  applyChannelOverride_channelMsg s (k :: v :: rest) oc t4 hch, hs2]
            · rw [applyChannelOverride_channelMsg s (k :: v :: rest) oc t1 hch, hs2,
                  applyNoteTransposition_note_inRange _ k v rest n _ hn hnote2
                    (by omega) (by omega),
                  applyNoteTransposition_note_inRange s k v rest n t3 hn hnote
                    (by omega) (by omega),
                  applyChannelOverride_channelMsg s (((k : Int) + n).toNat :: v :: rest)
                    oc t4 hch, hs2]
          · have hnote2 : ¬((0x90 ≤ s / 16 * 16 + (oc - 1) ∧
                s / 16 * 16 + (oc - 1) ≤ 0x9F) ∨
                (0x80 ≤ s / 16 * 16 + (oc - 1) ∧
                 s / 16 * 16 + (oc - 1) ≤ 0x8F)) := by omega
            rw [applyChannelOverride_channelMsg s (k :: v :: rest) oc t1 hch, hs2,
                applyNoteTransposition_notNote _ k v rest (some n) _ hnote2,
                applyNoteTransposition_notNote s k v rest (some n) t3 hnote,
                applyChannelOverride_channelMsg s (k :: v :: rest) oc t4 hch, hs2]
        · have hnote : ¬((0x90 ≤ s ∧ s ≤ 0x9F) ∨ (0x80 ≤ s ∧ s ≤ 0x8F)) := by omega
          rw [applyChannelOverride_systemMsg s (k :: v :: rest) oc t1 hch,
              applyNoteTransposition_notNote s k v rest (some n) t2 hnote,
              applyNoteTransposition_notNote s k v rest (some n) t3 hnote,
              applyChannelOverride_systemMsg s (k :: v :: rest) oc t4 hch]

/-- Witness for C8: override to channel 5 and transposition by +7 commute
on a Note On, both orders giving `[0x94, 67, 100]`. -/
theorem transformOrder_immaterial_witness :
    (applyNoteTransposition (applyChannelOverride [0x90, 60, 100] (some 5) {}).1
      (some 7) {}).1 =
    (applyChannelOverride (applyNoteTransposition [0x90, 60, 100] (some 7) {}).1
      (some 5) {}).1 ∧
    (applyNoteTransposition (applyChannelOverride [0x90, 60, 100] (some 5) {}).1
      (some 7) {}).1 = [0x94, 67, 100] := by
  refine ⟨(transformOrder_immaterial [0x90, 60, 100] 5 (some 7) {} {} {} {}
    (by decide) (by decide)).2, by decide⟩

/-- Claim C9: transposing by `+n` and then by `-n` returns the message
byte-identical whenever both steps stay within the MIDI note range
`[0,127]` (condition `transposeStepsStayInRange`); messages that are not
note messages round-trip unconditionally. -/
theorem transpose_roundTrip (msg : Msg) (n : Int) (t1 t2 : MessageTransformation)
    (h : transposeStepsStayInRange msg n) :
    (applyNoteTransposition (applyNoteTransposition msg (some n) t1).1
      (some (-n)) t2).1 = msg := by
  by_cases hn : n = 0
  · subst hn
    rw [applyNoteTransposition_zero, show (-(0 : Int)) = 0 from rfl,
        applyNoteTransposition_zero]
  · rcases Nat.lt_or_ge msg.length 3 with hlen | hlen
    · rw [applyNoteTransposition_short msg (some n) t1 hlen,
          applyNoteTransposition_short msg (some (-n)) t2 hlen]
    · obtain ⟨s, k, v, rest, rfl⟩ : ∃ s k v rest, msg = s :: k :: v :: rest := by
        match msg, hlen with
        | s :: k :: v :: rest, _ => exact ⟨s, k, v, rest, rfl⟩
      by_cases hs : (0x90 ≤ s ∧ s ≤ 0x9F) ∨ (0x80 ≤ s ∧ s ≤ 0x8F)
      · obtain ⟨h0, h127, hk⟩ := h hs
        have hneg : (-n) ≠ 0 := by omega
        have hcast : ((((k : Int) + n).toNat : Int)) = (k : Int) + n :=
          Int.toNat_of_nonneg h0
        rw [applyNoteTransposition_note_inRange s k v rest n t1 hn hs h0 h127]
        rw [applyNoteTransposition_note_inRange s (((k : Int) + n).toNat) v rest
          (-n) _ hneg hs (by rw [hcast]; omega) (by rw [hcast]; omega)]
        have hback : (((((k : Int) + n).toNat : Int)) + (-n)).toNat = k := by
          rw [hcast]; omega
        rw [hback]
      · rw [applyNoteTransposition_notNote s k v rest (some n) t1 hs,
            applyNoteTransposition_notNote s k v rest (some (-n)) t2 hs]

/-- Witness for C9: transposing a Note On with key 60 by +12 then -12
returns the original bytes. -/
theorem transpose_roundTrip_witness :
    (applyNoteTransposition (applyNoteTransposition [0x90, 60, 100] (some 12) {}).1
      (some (-12)) {}).1 = [0x90, 60, 100] :=
  transpose_roundTrip [0x90, 60, 100] 12 {} {}
    (fun _ => ⟨by decide, by decide, by decide⟩)

/-- Claim C4: in the dispatch loop the bytes handed to output `i`'s
transport depend only on the original incoming message and output `i`'s
own configuration: the routing decision is `shouldRouteMessage` evaluated
on the original message, and the payload is that output's own transform of
a fresh copy of the original - independent of every other output's
configuration and transforms, of the send results, and of `quiet` (the
statement quantifies over all of them). -/
theorem dispatch_per_output_independence (outputs : List OutputConfig)
    (sendOk : Nat → Msg → Bool) (quiet : Bool) (msg : Msg) (i : Nat)
    (hi : i < outputs.length) :
    sentTo i (processMessage outputs sendOk quiet msg) =
      (if shouldRouteMessage msg (outputs.get ⟨i, hi⟩)
       then [(transformForOutput msg (outputs.get ⟨i, hi⟩)).1] else []) := by
  have hPM : processMessage outputs sendOk quiet msg =
      (routeLoop sendOk quiet msg 0 outputs).1 ++
        (if (routeLoop sendOk quiet msg 0 outputs).2 then []
         else if quiet then [] else [LogEvent.dropped msg]) := rfl
  rw [hPM, sentTo_append]
  have h1 := sentTo_routeLoop_get sendOk quiet msg outputs 0 i hi
  rw [Nat.zero_add] at h1
  rw [h1]
  have h2 : sentTo i (if (routeLoop sendOk quiet msg 0 outputs).2 then []
      else if quiet then [] else [LogEvent.dropped msg]) = [] := by
    split
    · rfl
    · split <;> rfl
  rw [h2, List.append_nil]

/-- Witness for C4: two filterless outputs with overrides to channels 2
and 3 on the same Note On each receive their own independently rewritten
copy. -/
theorem dispatch_per_output_independence_witness :
    sentTo 0 (processMessage
      [{ name := "a", overrideChannel := some 2 },
       { name := "b", overrideChannel := some 3 }]
      (fun _ _ => true) false [0x90, 60, 100]) = [[0x91, 60, 100]] ∧
    sentTo 1 (processMessage
      [{ name := "a", overrideChannel := some 2 },
       { name := "b", overrideChannel := some 3 }]
      (fun _ _ => true) false [0x90, 60, 100]) = [[0x92, 60, 100]] := by
  constructor
  · exact (dispatch_per_output_independence
      [{ name := "a", overrideChannel := some 2 },
       { name := "b", overrideChannel := some 3 }]
      (fun _ _ => true) false [0x90, 60, 100] 0 (by decide)).trans (by decide)
  · exact (dispatch_per_output_independence
      [{ name := "a", overrideChannel := some 2 },
       { name := "b", overrideChannel := some 3 }]
      (fun _ _ => true) false [0x90, 60, 100] 1 (by decide)).trans (by decide)

/-- Claim C5: with logging on (`quiet = false`), a failed send to output
`i` produces exactly one error log line for that output and no routed
report line (the output is treated as not-forwarded), while every other
output is still evaluated and characterized the same way (the statement
holds for every `i` regardless of the other outputs' send results); after
the loop, exactly one dropped-message line is emitted iff no output's send
succeeded, and otherwise one report line per output that forwarded the
message. -/
theorem dispatch_send_failure_semantics (outputs : List OutputConfig)
    (sendOk : Nat → Msg → Bool) (msg : Msg) (i : Nat)
    (hi : i < outputs.length) :
    (countSendError i (processMessage outputs sendOk false msg) =
      (if shouldRouteMessage msg (outputs.get ⟨i, hi⟩) = true ∧
          sendOk i (transformForOutput msg (outputs.get ⟨i, hi⟩)).1 = false
       then 1 else 0)) ∧
    (countRouted i (processMessage outputs sendOk false msg) =
      (if shouldRouteMessage msg (outputs.get ⟨i, hi⟩) = true ∧
          sendOk i (transformForOutput msg (outputs.get ⟨i, hi⟩)).1 = true
       then 1 else 0)) ∧
    ((∃ j, ∃ hj : j < outputs.length,
        shouldRouteMessage msg (outputs.get ⟨j, hj⟩) = true ∧
        sendOk j (transformForOutput msg (outputs.get ⟨j, hj⟩)).1 = true) →
      countDropped (processMessage outputs sendOk false msg) = 0) ∧
    ((¬∃ j, ∃ hj : j < outputs.length,
        shouldRouteMessage msg (outputs.get ⟨j, hj⟩) = true ∧
        sendOk j (transformForOutput msg (outputs.get ⟨j, hj⟩)).1 = true) →
      countDropped (processMessage outputs sendOk false msg) = 1) := by
  have hPM : processMessage outputs sendOk false msg =
      (routeLoop sendOk false msg 0 outputs).1 ++
        (if (routeLoop sendOk false msg 0 outputs).2 then []
         else [LogEvent.dropped msg]) := rfl
  refine ⟨?_, ?_, ?_, ?_⟩
  · rw [hPM, countSendError_append]
    have h1 := countSendError_routeLoop_get sendOk false msg outputs 0 i hi
    rw [Nat.zero_add] at h1
    rw [h1]
    have h2 : countSendError i (if (routeLoop sendOk false msg 0 outputs).2
        then [] else [LogEvent.dropped msg]) = 0 := by
      split <;> rfl
    rw [h2, Nat.add_zero]
  · rw [hPM, countRouted_append]
    have h1 := countRouted_routeLoop_get sendOk msg outputs 0 i hi
    rw [Nat.zero_add] at h1
    rw [h1]
    have h2 : countRouted i (if (routeLoop sendOk false msg 0 outputs).2
        then [] else [LogEvent.dropped msg]) = 0 := by
      split <;> rfl
    rw [h2, Nat.add_zero]
  · intro hex
    have hsnd : (routeLoop sendOk false msg 0 outputs).2 = true := by
      rw [routeLoop_snd_iff]
      obtain ⟨j, hj, ha, hb⟩ := hex
      exact ⟨j, hj, ha, by simpa using hb⟩
    rw [hPM, countDropped_append, countDropped_routeLoop, hsnd]
    rfl
  · intro hnex
    rcases Bool.eq_false_or_eq_true ((routeLoop sendOk false msg 0 outputs).2)
      with hsnd | hsnd
    · exfalso
      obtain ⟨j, hj, ha, hb⟩ := (routeLoop_snd_iff sendOk false msg outputs 0).mp hsnd
      exact hnex ⟨j, hj, ha, by simpa using hb⟩
    · rw [hPM, countDropped_append, countDropped_routeLoop, hsnd]
      rfl

/-- Witness for C5: output 0's send fails and output 1's succeeds on the
same message: one error line for output 0, no report line for it, one
report line for output 1, and no dropped line; with both sends failing the
same message yields exactly one dropped line. -/
theorem dispatch_send_failure_semantics_witness :
    countSendError 0 (processMessage
      [{ name := "a", overrideChannel := some 2 },
       { name := "b", overrideChannel := some 3 }]
      (fun i _ => i == 1) false [0x90, 60, 100]) = 1 ∧
    countRouted 0 (processMessage
      [{ name := "a", overrideChannel := some 2 },
       { name := "b", overrideChannel := some 3 }]
      (fun i _ => i == 1) false [0x90, 60, 100]) = 0 ∧
    countRouted 1 (processMessage
      [{ name := "a", overrideChannel := some 2 },
       { name := "b", overrideChannel := some 3 }]
      (fun i _ => i == 1) false [0x90, 60, 100]) = 1 ∧
    countDropped (processMessage
      [{ name := "a", overrideChannel := some 2 },
       { name := "b", overrideChannel := some 3 }]
      (fun i _ => i == 1) false [0x90, 60, 100]) = 0 ∧
    countDropped (processMessage
      [{ name := "a", overrideChannel := some 2 },
       { name := "b", overrideChannel := some 3 }]
      (fun _ _ => false) false [0x90, 60, 100]) = 1 := by
  refine ⟨?_, ?_, ?_, ?_, ?_⟩
  · exact ((dispatch_send_failure_semantics
      [{ name := "a", overrideChannel := some 2 },
       { name := "b", overrideChannel := some 3 }]
      (fun i _ => i == 1) [0x90, 60, 100] 0 (by decide)).1).trans (by decide)
  · exact ((dispatch_send_failure_semantics
      [{ name := "a", overrideChannel := some 2 },
       { name := "b", overrideChannel := some 3 }]
      (fun i _ => i == 1) [0x90, 60, 100] 0 (by decide)).2.1).trans (by decide)
  · exact ((dispatch_send_failure_semantics
      [{ name := "a", overrideChannel := some 2 },
       { name := "b", overrideChannel := some 3 }]
      (fun i _ => i == 1) [0x90, 60, 100] 1 (by decide)).2.1).trans (by decide)
  · exact (dispatch_send_failure_semantics
      [{ name := "a", overrideChannel := some 2 },
       { name := "b", overrideChannel := some 3 }]
      (fun i _ => i == 1) [0x90, 60, 100] 0 (by decide)).2.2.1
      ⟨1, by decide, by decide, by decide⟩
  · exact (dispatch_send_failure_semantics
      [{ name := "a", overrideChannel := some 2 },
       { name := "b", overrideChannel := some 3 }]
      (fun _ _ => false) [0x90, 60, 100] 0 (by decide)).2.2.2
      (by rintro ⟨j, hj, -, hb⟩; exact absurd hb (by simp))

/-- Claim C6: `shouldRouteMessage` is the conjunction of the enabled
filters - it returns true iff every configured filter passes the message,
with absent filters imposing no constraint - and an output with neither
filter passes every message, which with no transforms configured is then
forwarded byte-identical. -/
theorem shouldRouteMessage_spec (msg : Msg) (outputConfig : OutputConfig) :
    (shouldRouteMessage msg outputConfig = true ↔
      ((∀ cf, outputConfig.channelFilter = some cf → cf.ShouldPass msg = true) ∧
       (∀ nrf, outputConfig.noteRangeFilter = some nrf → nrf.ShouldPass msg = true))) ∧
    (outputConfig.channelFilter = none → outputConfig.noteRangeFilter = none →
      (shouldRouteMessage msg outputConfig = true ∧
       (outputConfig.overrideChannel = none →
        outputConfig.transposeSemitones = none →
        (transformForOutput msg outputConfig).1 = msg))) := by
  constructor
  · cases hc : outputConfig.channelFilter <;>
      cases hn : outputConfig.noteRangeFilter <;>
        simp [shouldRouteMessage, Option.all, hc, hn]
  · intro h1 h2
    refine ⟨by simp [shouldRouteMessage, Option.all, h1, h2], ?_⟩
    intro h3 h4
    simp [transformForOutput, h3, h4, applyChannelOverride, applyNoteTransposition]

/-- Witness for C6: an output with no filters passes a Program Change and,
with no transforms, forwards it byte-identical. -/
theorem shouldRouteMessage_spec_witness :
    shouldRouteMessage [0xC0, 5] ({ name := "Out 1" } : OutputConfig) = true ∧
    (transformForOutput [0xC0, 5] ({ name := "Out 1" } : OutputConfig)).1 =
      [0xC0, 5] := by
  obtain ⟨-, h⟩ := shouldRouteMessage_spec [0xC0, 5] ({ name := "Out 1" } : OutputConfig)
  obtain ⟨ha, hb⟩ := h rfl rfl
  exact ⟨ha, hb rfl rfl⟩

end MidiRouter
